import Mathlib

/-!
Shallow embedding of the FURGfs2 hosted filesystem (source file main.go of
the repository, with the older variant in the unnamed file differing only in
free-space accounting on copy/remove, the path-existence helper, and the
absence of DeleteDirectory).

Machine integers (uint32 in the source) are modelled as Nat with explicit
wraparound where the source performs 32-bit arithmetic.  Byte buffers
(the [32]byte name and [128]byte path fields) are lists of Nat.  Host I/O is
outside the model: copy-in receives the host file name and size directly,
and the save/load pair is modelled on the byte list that the source writes
to and reads from the image file.
-/

/-- 2 to the power 32, the modulus of uint32 arithmetic. -/
def u32Mod : Nat := 4294967296

/-- uint32 addition. -/
def u32add (a b : Nat) : Nat := (a + b) % u32Mod

/-- uint32 subtraction with wraparound. -/
def u32sub (a b : Nat) : Nat := (a + u32Mod - b % u32Mod) % u32Mod

/-- uint32 multiplication. -/
def u32mul (a b : Nat) : Nat := (a * b) % u32Mod

/-- Header: the superblock record (six uint32 fields). -/
structure Header where
  TotalSize : Nat
  BlockSize : Nat
  FreeSpace : Nat
  FATEntrypointAddress : Nat
  RootDirStart : Nat
  DataStart : Nat
  deriving DecidableEq, Repr

/-- FATEntry: one allocation-table record. -/
structure FATEntry where
  BlockID : Nat
  NextBlockID : Nat
  Used : Bool
  deriving DecidableEq, Repr

/-- FileEntry: one catalog record.  Name models the [32]byte buffer and
Path the [128]byte buffer. -/
structure FileEntry where
  Name : List Nat
  Path : List Nat
  Size : Nat
  FirstBlockID : Nat
  Protected : Bool
  IsDirectory : Bool
  deriving DecidableEq, Repr

/-- FURGFileSystem: the in-memory state (the host file handle is not part
of the model). -/
structure FURGFileSystem where
  Header : Header
  FAT : List FATEntry
  RootDir : List FileEntry
  deriving DecidableEq, Repr

/-- The zero value of FATEntry, written by the source as FATEntry{}. -/
def zeroFATEntry : FATEntry := { BlockID := 0, NextBlockID := 0, Used := false }

/-- The zero value of FileEntry, written by the source as FileEntry{}. -/
def zeroFileEntry : FileEntry :=
  { Name := List.replicate 32 0, Path := List.replicate 128 0,
    Size := 0, FirstBlockID := 0, Protected := false, IsDirectory := false }

/-- Models the Go idiom of copying a string into a zeroed fixed-size byte
array: the first n bytes of s, padded with zero bytes up to length n. -/
def padBytes (n : Nat) (s : List Nat) : List Nat :=
  s.take n ++ List.replicate (n - (s.take n).length) 0

/-- isAllNullBytes from the source: every byte of the string is zero. -/
def isAllNullBytes (s : List Nat) : Bool := s.all (fun b => b == 0)

/-- Models bytes.Trim(s, cutset of the zero byte): drops zero bytes from
both ends. -/
def trimNulls (s : List Nat) : List Nat :=
  ((s.dropWhile (fun b => b == 0)).reverse.dropWhile (fun b => b == 0)).reverse

/-- unsafe.Sizeof(FATEntry{}) in the source: 12 bytes (4 + 4 + 1 + 3 padding). -/
def fatEntrySize : Nat := 12

/-- unsafe.Sizeof(FileEntry{}) in the source: 172 bytes (170 + 2 padding). -/
def fileEntrySize : Nat := 172

/-- calculateFATSize from the source. -/
def calculateFATSize (FileSystemSize BlockSize FATEntrySize : Nat) : Nat :=
  u32mul (FileSystemSize / BlockSize) FATEntrySize

/-- calculateRootDirSize from the source. -/
def calculateRootDirSize (entriesNumber : Nat) : Nat :=
  u32mul entriesNumber fileEntrySize

/-- calculateHeaderSize from the source: unsafe.Sizeof(Header{}) = 24. -/
def calculateHeaderSize : Nat := 24

/-- createFileSystem from the source (the host file creation and the header
write to disk are I/O outside the model; the returned in-memory state is
embedded exactly). -/
def createFileSystem (BlockSize TotalSize : Nat) : FURGFileSystem :=
  let entriesNumber : Nat := 100
  let rootDirSize := calculateRootDirSize entriesNumber
  let headerSize := calculateHeaderSize
  let FATSize :=
    calculateFATSize (u32sub (u32sub TotalSize headerSize) rootDirSize) BlockSize fatEntrySize
  let header : Header :=
    { TotalSize := TotalSize
      BlockSize := BlockSize
      FreeSpace := u32sub (u32sub (u32sub TotalSize headerSize) FATSize) rootDirSize
      FATEntrypointAddress := headerSize
      RootDirStart := u32add headerSize FATSize
      DataStart := u32add (u32add headerSize FATSize) rootDirSize }
  { Header := header
    FAT := List.replicate (FATSize / fatEntrySize) zeroFATEntry
    RootDir := List.replicate entriesNumber zeroFileEntry }

/-- The scan loop of CheckFileEntryAlreadyExists, carrying the running
index; equality is on the full zero-padded buffers, as in the source. -/
def checkFrom (name path : List Nat) : Nat → List FileEntry → Option Nat
  | _, [] => none
  | i, v :: rest =>
    if v.Name = name ∧ v.Path = path then some i else checkFrom name path (i + 1) rest

/-- CheckFileEntryAlreadyExists from the source; the -1 result is modelled
as none. -/
def CheckFileEntryAlreadyExists (fs : FURGFileSystem) (name path : List Nat) : Option Nat :=
  checkFrom name path 0 fs.RootDir

/-- The scan loop of CheckDirectoryExists, carrying the running index. -/
def dirFrom (path : List Nat) : Nat → List FileEntry → Option Nat
  | _, [] => none
  | i, v :: rest =>
    let trimmedExistingName := trimNulls v.Name
    let trimmedExistingPath := trimNulls v.Path
    let completePath :=
      if trimmedExistingPath = [47] then 47 :: trimmedExistingName
      else trimmedExistingPath ++ 47 :: trimmedExistingName
    if completePath = path ∧ v.IsDirectory then some i else dirFrom path (i + 1) rest

/-- CheckDirectoryExists from the source; note that the root path returns
index 0 unconditionally, as in the source. -/
def CheckDirectoryExists (fs : FURGFileSystem) (path : List Nat) : Option Nat :=
  if path = [47] then some 0
  else dirFrom path 0 fs.RootDir

/-- The scan loop of AddFileEntry: place the entry in the first slot whose
name starts with a zero byte. -/
def addFrom : List FileEntry → FileEntry → Option (List FileEntry)
  | [], _ => none
  | v :: rest, e =>
    if v.Name.head? = some 0 then some (e :: rest)
    else (addFrom rest e).map (fun r => v :: r)

/-- AddFileEntry from the source; none models the catalog-full error. -/
def AddFileEntry (rootDir : List FileEntry) (fileEntry : FileEntry) : Option (List FileEntry) :=
  addFrom rootDir fileEntry

/-- The inline insertion loop at the end of CopyFileToFileSystem: same scan
as AddFileEntry but silently leaving the catalog unchanged when full. -/
def insertFirstFree (rootDir : List FileEntry) (fileEntry : FileEntry) : List FileEntry :=
  (addFrom rootDir fileEntry).getD rootDir

/-- ProcessFileForFileSystem from the source, restricted to its pure part:
the host file open and stat are I/O, so the file name and byte size arrive
as arguments.  Returns the zero-padded name array, or none on the
free-space and name-length pre-checks. -/
def ProcessFileForFileSystem (fs : FURGFileSystem) (fileName : List Nat) (fileSize : Nat) :
    Option (List Nat) :=
  if fileSize > fs.Header.FreeSpace then none
  else if fileName.length > 32 then none
  else some (padBytes 32 fileName)

/-- The allocation scan inside the copy loop of CopyFileToFileSystem: the
first entry with Used = false (scanning from index 0) is replaced by a used
entry with NextBlockID = 0. -/
def allocFrom : Nat → List FATEntry → Option (Nat × List FATEntry)
  | _, [] => none
  | i, v :: rest =>
    if !v.Used then
      some (i, { BlockID := i, NextBlockID := 0, Used := true } :: rest)
    else (allocFrom (i + 1) rest).map (fun p => (p.1, v :: p.2))

/-- The number of nonempty reads the copy loop performs on a host file of
the given size when reading blockSize bytes at a time. -/
def numChunks (fileSize blockSize : Nat) : Nat := (fileSize + blockSize - 1) / blockSize

/-- The streaming loop of CopyFileToFileSystem, one iteration per nonempty
chunk: allocate the first free FAT entry, decrement FreeSpace by one block,
link it to the previous block, remember the first block.  The data write to
the image is I/O outside the in-memory state.  On allocation failure the
source returns false keeping the partial mutations. -/
def copyChunks : Nat → FURGFileSystem → Nat → Bool → Nat → Bool × FURGFileSystem × Nat
  | 0, fs, firstBlock, _, _ => (true, fs, firstBlock)
  | k + 1, fs, firstBlock, firstBlockSet, previousBlock =>
    match allocFrom 0 fs.FAT with
    | none => (false, fs, firstBlock)
    | some (currentBlockID, fat1) =>
      let fs1 : FURGFileSystem :=
        { fs with
          FAT := fat1
          Header := { fs.Header with FreeSpace := u32sub fs.Header.FreeSpace fs.Header.BlockSize } }
      let fs2 : FURGFileSystem :=
        if firstBlockSet then
          { fs1 with
            FAT := fs1.FAT.set previousBlock
              { fs1.FAT.getD previousBlock zeroFATEntry with NextBlockID := currentBlockID } }
        else fs1
      let first1 := if firstBlockSet then firstBlock else currentBlockID
      copyChunks k fs2 first1 true currentBlockID

/-- CopyFileToFileSystem from the source.  The external path argument is
replaced by the host file name and size it determines; the data writes to
the image file are outside the in-memory state. -/
def CopyFileToFileSystem (fs : FURGFileSystem) (fileName : List Nat) (fileSize : Nat)
    (internalPath : List Nat) (prot : Bool) : Bool × FURGFileSystem :=
  match ProcessFileForFileSystem fs fileName fileSize with
  | none => (false, fs)
  | some fileNameArray =>
    let pathArray := padBytes 128 internalPath
    match CheckFileEntryAlreadyExists fs fileNameArray pathArray with
    | some _ => (false, fs)
    | none =>
      match copyChunks (numChunks fileSize fs.Header.BlockSize) fs 0 false 0 with
      | (false, fs1, _) => (false, fs1)
      | (true, fs1, firstBlock) =>
        (true,
          { fs1 with
            RootDir := insertFirstFree fs1.RootDir
              { Name := fileNameArray, Path := pathArray, Size := fileSize,
                FirstBlockID := firstBlock, Protected := prot, IsDirectory := false } })

/-- CreateDirectory from the source. -/
def CreateDirectory (fs : FURGFileSystem) (name path : List Nat) : Bool × FURGFileSystem :=
  let nameArray := padBytes 32 name
  if nameArray.contains 47 then (false, fs)
  else if isAllNullBytes name then (false, fs)
  else
    match CheckDirectoryExists fs path with
    | none => (false, fs)
    | some _ =>
      let pathArray := padBytes 128 path
      match CheckFileEntryAlreadyExists fs nameArray pathArray with
      | some _ => (false, fs)
      | none =>
        match AddFileEntry fs.RootDir
          { zeroFileEntry with Name := nameArray, Path := pathArray, IsDirectory := true } with
        | none => (false, fs)
        | some rd => (true, { fs with RootDir := rd })

/-- DeleteDirectory from the source: the slot that gets zeroed is the one
returned by CheckDirectoryExists applied to the PARENT path. -/
def DeleteDirectory (fs : FURGFileSystem) (name path : List Nat) : Bool × FURGFileSystem :=
  match CheckDirectoryExists fs path with
  | none => (false, fs)
  | some rootDirIndex =>
    let completePath := if path = [47] then 47 :: name else path ++ 47 :: name
    if fs.RootDir.any (fun v => trimNulls v.Path == completePath) then (false, fs)
    else (true, { fs with RootDir := fs.RootDir.set rootDirIndex zeroFileEntry })

/-- The chain-walking loop of RemoveFileFromFileSystem, embedded with a
fuel argument standing for the unbounded while loop; since each iteration
zeroes the successor entry and then reads it, the loop always stops within
two iterations, so any fuel of at least two computes the loop exactly.
Note the source order: advance nextBlockId first, then zero the entry at
the ADVANCED index and add one block to FreeSpace. -/
def freeChainLoop : Nat → List FATEntry → Nat → Nat → Nat → List FATEntry × Nat
  | 0, fat, freeSpace, _, _ => (fat, freeSpace)
  | fuel + 1, fat, freeSpace, blockSize, nextBlockId =>
    if nextBlockId = 0 then (fat, freeSpace)
    else
      let currentFileEntry := fat.getD nextBlockId zeroFATEntry
      let nextId := currentFileEntry.NextBlockID
      freeChainLoop fuel (fat.set nextId zeroFATEntry) (u32add freeSpace blockSize)
        blockSize nextId

/-- RemoveFileFromFileSystem from the source. -/
def RemoveFileFromFileSystem (fs : FURGFileSystem) (fileName path : List Nat) :
    Bool × FURGFileSystem :=
  let fileNameArray := padBytes 32 fileName
  let pathArray := padBytes 128 path
  if isAllNullBytes fileName then (false, fs)
  else
    match CheckFileEntryAlreadyExists fs fileNameArray pathArray with
    | none => (false, fs)
    | some rootDirIndex =>
      let f := fs.RootDir.getD rootDirIndex zeroFileEntry
      if f.Protected then (false, fs)
      else
        let r := freeChainLoop (fs.FAT.length + 1) fs.FAT fs.Header.FreeSpace
          fs.Header.BlockSize f.FirstBlockID
        (true,
          { Header := { fs.Header with FreeSpace := r.2 }
            FAT := r.1
            RootDir := fs.RootDir.set rootDirIndex zeroFileEntry })

/-- RenameFileFromFileSystem from the source; note there is no empty-name
pre-check here, unlike remove and permission change. -/
def RenameFileFromFileSystem (fs : FURGFileSystem) (oldFileName path newFileName : List Nat) :
    Bool × FURGFileSystem :=
  let oldFileNameArray := padBytes 32 oldFileName
  let pathArray := padBytes 128 path
  match CheckFileEntryAlreadyExists fs oldFileNameArray pathArray with
  | none => (false, fs)
  | some rootDirIndex =>
    let newFileNameArray := padBytes 32 newFileName
    if (fs.RootDir.getD rootDirIndex zeroFileEntry).Protected then (false, fs)
    else
      (true,
        { fs with
          RootDir := fs.RootDir.set rootDirIndex
            { fs.RootDir.getD rootDirIndex zeroFileEntry with Name := newFileNameArray } })

/-- ChangePermission from the source. -/
def ChangePermission (fs : FURGFileSystem) (fileName path : List Nat) : Bool × FURGFileSystem :=
  let fileNameArray := padBytes 32 fileName
  let pathArray := padBytes 128 path
  if isAllNullBytes fileName then (false, fs)
  else
    match CheckFileEntryAlreadyExists fs fileNameArray pathArray with
    | none => (false, fs)
    | some rootDirIndex =>
      let f := fs.RootDir.getD rootDirIndex zeroFileEntry
      (true,
        { fs with RootDir := fs.RootDir.set rootDirIndex { f with Protected := !f.Protected } })

/-- Little-endian encoding of a uint32, as binary.Write produces. -/
def encU32 (x : Nat) : List Nat :=
  [x % 256, x / 256 % 256, x / 65536 % 256, x / 16777216 % 256]

/-- Encoding of a Go bool under encoding/binary: a single byte. -/
def encBool (b : Bool) : List Nat := [if b then 1 else 0]

/-- binary.Write of the Header record: six uint32 fields, 24 bytes. -/
def encHeader (h : Header) : List Nat :=
  encU32 h.TotalSize ++ encU32 h.BlockSize ++ encU32 h.FreeSpace ++
  encU32 h.FATEntrypointAddress ++ encU32 h.RootDirStart ++ encU32 h.DataStart

/-- binary.Write of a FATEntry: 9 bytes (encoding/binary packs fields, no
struct padding). -/
def encFATEntry (e : FATEntry) : List Nat :=
  encU32 e.BlockID ++ encU32 e.NextBlockID ++ encBool e.Used

/-- binary.Write of a FileEntry: 170 bytes. -/
def encFileEntry (e : FileEntry) : List Nat :=
  e.Name ++ e.Path ++ encU32 e.Size ++ encU32 e.FirstBlockID ++
  encBool e.Protected ++ encBool e.IsDirectory

/-- saveFileSystemState from the source: header, then every FAT entry, then
every catalog entry, from offset 0 of the image. -/
def saveFileSystemState (fs : FURGFileSystem) : List Nat :=
  encHeader fs.Header ++ (fs.FAT.map encFATEntry).flatten ++
  (fs.RootDir.map encFileEntry).flatten

/-- binary.Read of a uint32; none when fewer than 4 bytes remain. -/
def decU32 : List Nat → Option (Nat × List Nat)
  | b0 :: b1 :: b2 :: b3 :: rest =>
    some (b0 + 256 * b1 + 65536 * b2 + 16777216 * b3, rest)
  | _ => none

/-- binary.Read of a bool: one byte, nonzero meaning true. -/
def decBool : List Nat → Option (Bool × List Nat)
  | b :: rest => some (b != 0, rest)
  | [] => none

/-- binary.Read of a Header. -/
def decHeader (bs : List Nat) : Option (Header × List Nat) := do
  let (t, r1) ← decU32 bs
  let (b, r2) ← decU32 r1
  let (f, r3) ← decU32 r2
  let (fa, r4) ← decU32 r3
  let (rd, r5) ← decU32 r4
  let (d, r6) ← decU32 r5
  pure ({ TotalSize := t, BlockSize := b, FreeSpace := f,
          FATEntrypointAddress := fa, RootDirStart := rd, DataStart := d }, r6)

/-- binary.Read of a FATEntry. -/
def decFATEntry (bs : List Nat) : Option (FATEntry × List Nat) := do
  let (a, r1) ← decU32 bs
  let (n, r2) ← decU32 r1
  let (u, r3) ← decBool r2
  pure ({ BlockID := a, NextBlockID := n, Used := u }, r3)

/-- Split off exactly n bytes; none when fewer remain. -/
def takeExact (n : Nat) (l : List Nat) : Option (List Nat × List Nat) :=
  if n ≤ l.length then some (l.take n, l.drop n) else none

/-- binary.Read of a FileEntry. -/
def decFileEntry (bs : List Nat) : Option (FileEntry × List Nat) := do
  let (nm, r1) ← takeExact 32 bs
  let (p, r2) ← takeExact 128 r1
  let (sz, r3) ← decU32 r2
  let (fb, r4) ← decU32 r3
  let (pr, r5) ← decBool r4
  let (dir, r6) ← decBool r5
  pure ({ Name := nm, Path := p, Size := sz, FirstBlockID := fb,
          Protected := pr, IsDirectory := dir }, r6)

/-- The FAT reading loop of loadFileSystem: any read failure aborts. -/
def readFATEntries : Nat → List Nat → Option (List FATEntry × List Nat)
  | 0, bs => some ([], bs)
  | n + 1, bs => do
    let (e, r) ← decFATEntry bs
    let (es, r2) ← readFATEntries n r
    pure (e :: es, r2)

/-- The catalog reading loop of loadFileSystem: a clean end of file (zero
bytes remaining) is tolerated, leaving the entry at its zero value; a
partial record aborts. -/
def readFileEntries : Nat → List Nat → Option (List FileEntry × List Nat)
  | 0, bs => some ([], bs)
  | n + 1, bs =>
    if bs = [] then do
      let (es, r2) ← readFileEntries n []
      pure (zeroFileEntry :: es, r2)
    else do
      let (e, r) ← decFileEntry bs
      let (es, r2) ← readFileEntries n r
      pure (e :: es, r2)

/-- loadFileSystem from the source, on the byte contents of the image file:
read the header, re-derive the FAT and catalog lengths from the header
fields, then read both arrays. -/
def loadFileSystem (data : List Nat) : Option FURGFileSystem := do
  let (header, r1) ← decHeader data
  let fatSize :=
    calculateFATSize (u32sub header.TotalSize header.DataStart) header.BlockSize fatEntrySize
  let (fat, r2) ← readFATEntries (fatSize / fatEntrySize) r1
  let entriesNumber := u32sub header.DataStart header.RootDirStart / fileEntrySize
  let (rootDir, _) ← readFileEntries entriesNumber r2
  pure { Header := header, FAT := fat, RootDir := rootDir }

/-- The facade operations reachable from the menu, with the host-side
inputs (file name and size for copy-in) as data. -/
inductive Op where
  | copyIn (fileName : List Nat) (fileSize : Nat) (path : List Nat) (prot : Bool)
  | removeFile (fileName path : List Nat)
  | renameFile (oldName path newName : List Nat)
  | changePermission (fileName path : List Nat)
  | makeDirectory (name path : List Nat)
  | removeDirectory (name path : List Nat)
  deriving DecidableEq, Repr

/-- One menu-driven step: run the operation and keep the resulting state
(whether the operation reported success or failure, as in the source). -/
def stepOp (fs : FURGFileSystem) : Op → FURGFileSystem
  | .copyIn n sz p pr => (CopyFileToFileSystem fs n sz p pr).2
  | .removeFile n p => (RemoveFileFromFileSystem fs n p).2
  | .renameFile o p n => (RenameFileFromFileSystem fs o p n).2
  | .changePermission n p => (ChangePermission fs n p).2
  | .makeDirectory n p => (CreateDirectory fs n p).2
  | .removeDirectory n p => (DeleteDirectory fs n p).2

/-- Run a sequence of facade operations. -/
def runOps (fs : FURGFileSystem) (ops : List Op) : FURGFileSystem := ops.foldl stepOp fs

/-- Slot liveness as the source tests it: the first name byte is nonzero. -/
def liveB (e : FileEntry) : Bool := !(e.Name.head? == some 0)

/-- Guard for the amended uniqueness claim: a rename step must not target a
new name already carried by a live slot under the same path buffer. -/
def renameOk (fs : FURGFileSystem) : Op → Bool
  | .renameFile _ p n =>
    !(fs.RootDir.any (fun v => liveB v && v.Name == padBytes 32 n && v.Path == padBytes 128 p))
  | _ => true

/-- A run in which every rename step satisfies the guard at its own state. -/
def guardedRun : FURGFileSystem → List Op → Bool
  | _, [] => true
  | fs, op :: rest => renameOk fs op && guardedRun (stepOp fs op) rest

/-- No two live catalog slots carry the same (name, parent path) pair of
zero-padded buffers. -/
def uniquePairs (l : List FileEntry) : Prop :=
  ∀ (i j : Nat) (ei ej : FileEntry), i ≠ j → l[i]? = some ei → l[j]? = some ej →
    liveB ei = true → liveB ej = true →
    ¬(ei.Name = ej.Name ∧ ei.Path = ej.Path)

/-- The quantity of the spec free-space invariant: the number of FAT
entries that are free and not the reserved entry 0. -/
def freeNonReservedCount : Nat → List FATEntry → Nat
  | _, [] => 0
  | i, e :: rest =>
    (if i ≠ 0 ∧ e.Used = false then 1 else 0) + freeNonReservedCount (i + 1) rest

/-- A filesystem whose FAT entries are all free and whose catalog is empty,
as right after formatting (small instance for concrete evaluation). -/
def freshSmallFs : FURGFileSystem :=
  { Header := { TotalSize := 40, BlockSize := 4, FreeSpace := 20,
                FATEntrypointAddress := 24, RootDirStart := 28, DataStart := 28 },
    FAT := List.replicate 3 zeroFATEntry, RootDir := List.replicate 2 zeroFileEntry }

/-- The image produced by format with the menu default block size 4096 and
the 10 MiB menu size. -/
def formatted10MiB : FURGFileSystem := createFileSystem 4096 10485760

/-- Claim C1: the claim states that the allocator only ever hands out FAT
indices of at least 1, so a stored file always has first_block_id of at
least 1.  The code instead scans the FAT from index 0: on a state whose
FAT is entirely free, copy-in of a 1-byte file allocates entry 0 and
records first_block_id = 0, which every chain walk then treats as the
terminator.  This theorem evaluates the code at that input. -/
theorem copyIn_allocates_block_zero :
    (CopyFileToFileSystem freshSmallFs [97] 1 [47] false).1 = true ∧
    ((CopyFileToFileSystem freshSmallFs [97] 1 [47] false).2.FAT.getD 0 zeroFATEntry).Used
      = true ∧
    ((CopyFileToFileSystem freshSmallFs [97] 1 [47] false).2.RootDir.getD 0
      zeroFileEntry).FirstBlockID = 0 ∧
    liveB ((CopyFileToFileSystem freshSmallFs [97] 1 [47] false).2.RootDir.getD 0
      zeroFileEntry) = true := by
  decide

/-- Counting from a nonzero start index, every entry of a free replicate
FAT is counted. -/
theorem freeNonReservedCount_replicate_pos (n : Nat) :
    ∀ i, i ≠ 0 → freeNonReservedCount i (List.replicate n zeroFATEntry) = n := by
  induction n with
  | zero => intro i _; rfl
  | succ m ih =>
    intro i hi
    have : freeNonReservedCount i (List.replicate (m + 1) zeroFATEntry)
        = (if i ≠ 0 ∧ zeroFATEntry.Used = false then 1 else 0) +
          freeNonReservedCount (i + 1) (List.replicate m zeroFATEntry) := rfl
    rw [this, if_pos ⟨hi, rfl⟩, ih (i + 1) (Nat.succ_ne_zero i)]
    omega

/-- Counting from index 0, the reserved entry is skipped: a free replicate
FAT of n + 1 entries counts n. -/
theorem freeNonReservedCount_replicate_zero (n : Nat) :
    freeNonReservedCount 0 (List.replicate (n + 1) zeroFATEntry) = n := by
  have : freeNonReservedCount 0 (List.replicate (n + 1) zeroFATEntry)
      = (if (0 : Nat) ≠ 0 ∧ zeroFATEntry.Used = false then 1 else 0) +
        freeNonReservedCount 1 (List.replicate n zeroFATEntry) := rfl
  rw [this, if_neg (fun h => h.1 rfl), freeNonReservedCount_replicate_pos n 1 one_ne_zero]
  omega

/-- Claim C2: the claim states that after every completed operation on a
freshly formatted image, free_space equals block_size times the number of
free non-reserved FAT entries.  On the formatted 10 MiB image, after a
completed mkdir (which touches neither the FAT nor free_space), free_space
is 10437876 while the FAT-derived quantity is 4096 times 2554 = 10461184.
This theorem evaluates both sides at that input. -/
theorem freeSpace_invariant_fails_on_formatted_image :
    (CreateDirectory formatted10MiB [97] [47]).1 = true ∧
    (CreateDirectory formatted10MiB [97] [47]).2.Header.FreeSpace = 10437876 ∧
    (CreateDirectory formatted10MiB [97] [47]).2.Header.BlockSize *
      freeNonReservedCount 0 (CreateDirectory formatted10MiB [97] [47]).2.FAT
      = 10461184 := by
  refine ⟨by decide, by decide, ?_⟩
  have hfat : (CreateDirectory formatted10MiB [97] [47]).2.FAT
      = List.replicate 2555 zeroFATEntry := rfl
  have hbs : (CreateDirectory formatted10MiB [97] [47]).2.Header.BlockSize = 4096 := by decide
  rw [hfat, hbs, show (2555 : Nat) = 2554 + 1 from rfl,
    freeNonReservedCount_replicate_zero]

/-- A state holding one unprotected file whose chain is 1 to 2 to 3. -/
def chain3Fs : FURGFileSystem :=
  { Header := { TotalSize := 64, BlockSize := 4, FreeSpace := 8,
                FATEntrypointAddress := 24, RootDirStart := 28, DataStart := 32 },
    FAT := [zeroFATEntry, { BlockID := 1, NextBlockID := 2, Used := true },
            { BlockID := 2, NextBlockID := 3, Used := true },
            { BlockID := 3, NextBlockID := 0, Used := true }],
    RootDir := [{ Name := padBytes 32 [102], Path := padBytes 128 [47], Size := 5,
                  FirstBlockID := 1, Protected := false, IsDirectory := false },
                zeroFileEntry] }

/-- Claim C3: the claim states that a successful remove zeroes every FAT
entry of the chain starting at first_block_id and adds block_size per chain
block to free_space.  The removal loop advances the cursor before zeroing,
so on the chain 1, 2, 3 it zeroes entries 2 and 0 (the reserved entry),
leaves entries 1 and 3 used, and adds only 2 blocks instead of 3.  This
theorem evaluates the code at that input. -/
theorem removeFile_frees_wrong_entries :
    (RemoveFileFromFileSystem chain3Fs [102] [47]).1 = true ∧
    (RemoveFileFromFileSystem chain3Fs [102] [47]).2.FAT =
      [zeroFATEntry, { BlockID := 1, NextBlockID := 2, Used := true },
       zeroFATEntry, { BlockID := 3, NextBlockID := 0, Used := true }] ∧
    (RemoveFileFromFileSystem chain3Fs [102] [47]).2.Header.FreeSpace = 16 ∧
    (RemoveFileFromFileSystem chain3Fs [102] [47]).2.RootDir =
      [zeroFileEntry, zeroFileEntry] := by
  decide

/-- A state whose header-derived FAT capacity (as load computes it) is 0
while the in-memory FAT has one entry. -/
def mismatchFs : FURGFileSystem :=
  { Header := { TotalSize := 100, BlockSize := 10, FreeSpace := 0,
                FATEntrypointAddress := 24, RootDirStart := 100, DataStart := 100 },
    FAT := [zeroFATEntry], RootDir := [] }

/-- Claim C4: the claim states that save followed by load restores a
byte-identical in-memory state, including equal FAT length.  Load derives
the FAT length from (total_size - data_start) / block_size while the saved
state may have any FAT length (create uses a different divisor), so the
round trip loses entries: here a state with one FAT entry reloads with
none.  This theorem evaluates save-then-load at that input. -/
theorem save_load_round_trip_fails :
    loadFileSystem (saveFileSystemState mismatchFs) =
      some { Header := mismatchFs.Header, FAT := [], RootDir := [] } ∧
    ({ Header := mismatchFs.Header, FAT := [], RootDir := [] } : FURGFileSystem)
      ≠ mismatchFs := by
  decide

/-- A fresh state with two free FAT entries and two free catalog slots. -/
def freshTwoFs : FURGFileSystem :=
  { Header := { TotalSize := 40, BlockSize := 4, FreeSpace := 20,
                FATEntrypointAddress := 24, RootDirStart := 28, DataStart := 28 },
    FAT := List.replicate 2 zeroFATEntry, RootDir := List.replicate 2 zeroFileEntry }

/-- Claim C5: the claim states that copy-in with a parent path that is
neither the root nor the absolute path of a live directory fails with
NotFound before any allocation.  The code performs no parent-path check at
all: on a fresh state, copy-in of a 1-byte file under the nonexistent
parent /n succeeds, allocates a block, decrements free_space and inserts a
catalog entry carrying the nonexistent parent.  This theorem evaluates the
code at that input. -/
theorem copyIn_missing_parent_succeeds :
    CheckDirectoryExists freshTwoFs [47, 110] = none ∧
    (CopyFileToFileSystem freshTwoFs [97] 1 [47, 110] false).1 = true ∧
    ((CopyFileToFileSystem freshTwoFs [97] 1 [47, 110] false).2.FAT.getD 0
      zeroFATEntry).Used = true ∧
    (CopyFileToFileSystem freshTwoFs [97] 1 [47, 110] false).2.Header.FreeSpace = 16 ∧
    (CopyFileToFileSystem freshTwoFs [97] 1 [47, 110] false).2.RootDir.getD 0 zeroFileEntry =
      { Name := padBytes 32 [97], Path := padBytes 128 [47, 110], Size := 1,
        FirstBlockID := 0, Protected := false, IsDirectory := false } := by
  decide

/-- Two live directories a and b under the root, in slots 0 and 1. -/
def twoDirsFs : FURGFileSystem :=
  { Header := { TotalSize := 40, BlockSize := 4, FreeSpace := 20,
                FATEntrypointAddress := 24, RootDirStart := 28, DataStart := 28 },
    FAT := [],
    RootDir := [{ zeroFileEntry with
                    Name := padBytes 32 [97], Path := padBytes 128 [47], IsDirectory := true },
                { zeroFileEntry with
                    Name := padBytes 32 [98], Path := padBytes 128 [47], IsDirectory := true }] }

/-- Claim C7: the claim states that a successful rmdir of an empty
directory zeroes exactly the slot holding that directory.  The code zeroes
the slot returned by CheckDirectoryExists applied to the PARENT path, which
for parent "/" is slot 0 unconditionally: removing directory b (slot 1)
zeroes slot 0 (directory a) and leaves b live.  This theorem evaluates the
code at that input. -/
theorem deleteDirectory_zeroes_wrong_slot :
    (DeleteDirectory twoDirsFs [98] [47]).1 = true ∧
    (DeleteDirectory twoDirsFs [98] [47]).2.RootDir =
      [zeroFileEntry,
       { zeroFileEntry with
           Name := padBytes 32 [98], Path := padBytes 128 [47], IsDirectory := true }] := by
  decide

/-- Claim C6 counterexample: on the formatted 10 MiB image the FAT has 2555
entries, while (total_size - data_offset) / block_size is 2548, so the
claimed capacity formula does not match createFileSystem. -/
theorem createFileSystem_fat_capacity_counterexample :
    (createFileSystem 4096 10485760).FAT.length = 2555 ∧
    (10485760 - (createFileSystem 4096 10485760).Header.DataStart) / 4096 = 2548 ∧
    (createFileSystem 4096 10485760).FAT.length ≠
      (10485760 - (createFileSystem 4096 10485760).Header.DataStart) / 4096 := by
  have hlen : (createFileSystem 4096 10485760).FAT.length = 2555 := by
    have hfat : (createFileSystem 4096 10485760).FAT
        = List.replicate 2555 zeroFATEntry := rfl
    rw [hfat, List.length_replicate]
  have hd : (10485760 - (createFileSystem 4096 10485760).Header.DataStart) / 4096 = 2548 := by
    decide
  refine ⟨hlen, hd, ?_⟩
  rw [hlen, hd]
  decide

/-- Claim C6 (amended): for the sizes the format menu accepts (10 MiB,
100 MiB, 800 MiB, block size 4096), the number of FAT entries created by
createFileSystem equals (total_size - header size - catalog bytes) divided
by block_size, not (total_size - data_offset) / block_size. -/
theorem createFileSystem_fat_capacity (BlockSize TotalSize : Nat)
    (hts : TotalSize = 10485760 ∨ TotalSize = 104857600 ∨ TotalSize = 838860800)
    (hbs : BlockSize = 4096) :
    (createFileSystem BlockSize TotalSize).FAT.length =
      (TotalSize - calculateHeaderSize - calculateRootDirSize 100) / BlockSize := by
  have hlen : ∀ ts : Nat, (createFileSystem 4096 ts).FAT.length =
      calculateFATSize (u32sub (u32sub ts calculateHeaderSize) (calculateRootDirSize 100))
        4096 fatEntrySize / fatEntrySize := by
    intro ts
    exact List.length_replicate _ _
  subst hbs
  rcases hts with h | h | h <;> subst h <;> rw [hlen] <;> decide

/-- Claim C6 witness: the amended capacity formula evaluated on the 10 MiB
image. -/
theorem createFileSystem_fat_capacity_witness :
    ((10485760 : Nat) = 10485760 ∨ (10485760 : Nat) = 104857600 ∨
      (10485760 : Nat) = 838860800) ∧ (4096 : Nat) = 4096 ∧
    (createFileSystem 4096 10485760).FAT.length =
      (10485760 - calculateHeaderSize - calculateRootDirSize 100) / 4096 :=
  ⟨Or.inl rfl, rfl, createFileSystem_fat_capacity 4096 10485760 (Or.inl rfl) rfl⟩

/-- Characterization of a successful catalog scan: the returned index is
the start index plus the position of the first full-buffer match, and no
earlier slot matches. -/
theorem checkFrom_eq_some (name path : List Nat) :
    ∀ (l : List FileEntry) (k i : Nat), checkFrom name path k l = some i →
      ∃ j v, i = k + j ∧ l[j]? = some v ∧ v.Name = name ∧ v.Path = path ∧
        ∀ (m : Nat) (w : FileEntry), m < j → l[m]? = some w →
          ¬(w.Name = name ∧ w.Path = path) := by
  intro l
  induction l with
  | nil => intro k i h; simp [checkFrom] at h
  | cons v rest ih =>
    intro k i h
    by_cases hv : v.Name = name ∧ v.Path = path
    · have hk : k = i := by simpa [checkFrom, hv] using h
      exact ⟨0, v, by omega, List.getElem?_cons_zero, hv.1, hv.2,
        fun m w hm _ => absurd hm (Nat.not_lt_zero m)⟩
    · have h2 : checkFrom name path (k + 1) rest = some i := by
        simpa [checkFrom, hv] using h
      obtain ⟨j, w, hij, hjw, hwn, hwp, hmin⟩ := ih (k + 1) i h2
      refine ⟨j + 1, w, by omega, by simpa [List.getElem?_cons_succ] using hjw, hwn, hwp, ?_⟩
      intro m u hm hu
      cases m with
      | zero =>
        have hvu : v = u := by simpa using hu
        exact fun hp => hv (hvu ▸ hp)
      | succ m2 =>
        exact hmin m2 u (by omega) (by simpa using hu)

/-- A failed catalog scan means no slot matches the two buffers. -/
theorem checkFrom_eq_none (name path : List Nat) :
    ∀ (l : List FileEntry) (k : Nat), checkFrom name path k l = none →
      ∀ v ∈ l, ¬(v.Name = name ∧ v.Path = path) := by
  intro l
  induction l with
  | nil => intro k _ v hv; simp at hv
  | cons v rest ih =>
    intro k h w hw
    by_cases hv : v.Name = name ∧ v.Path = path
    · simp [checkFrom, hv] at h
    · have h2 : checkFrom name path (k + 1) rest = none := by
        simpa [checkFrom, hv] using h
      rcases List.mem_cons.mp hw with hwv | hw2
      · exact hwv ▸ hv
      · exact ih (k + 1) h2 w hw2

/-- A successful insertion scan writes the entry over the first slot whose
name starts with a zero byte. -/
theorem addFrom_eq_some :
    ∀ (l : List FileEntry) (e : FileEntry) (r : List FileEntry), addFrom l e = some r →
      ∃ i v, l[i]? = some v ∧ v.Name.head? = some 0 ∧ r = l.set i e := by
  intro l e
  induction l with
  | nil => intro r h; simp [addFrom] at h
  | cons v rest ih =>
    intro r h
    by_cases hv : v.Name.head? = some 0
    · have hr : e :: rest = r := by simpa [addFrom, hv] using h
      exact ⟨0, v, List.getElem?_cons_zero, hv, by simp [← hr]⟩
    · have h2 : (addFrom rest e).map (fun rr => v :: rr) = some r := by
        simpa [addFrom, hv] using h
      obtain ⟨r2, hr2, hrr⟩ := Option.map_eq_some'.mp h2
      obtain ⟨i, w, hiw, hw0, hre⟩ := ih r2 hr2
      exact ⟨i + 1, w, by simpa using hiw, hw0, by simp [← hrr, hre]⟩

/-- The insertion scan succeeds as soon as some slot has a zero name head. -/
theorem addFrom_isSome_of_any :
    ∀ (l : List FileEntry) (e : FileEntry),
      l.any (fun v => v.Name.head? == some 0) = true → ∃ r, addFrom l e = some r := by
  intro l e
  induction l with
  | nil => intro h; simp at h
  | cons v rest ih =>
    intro h
    by_cases hv : v.Name.head? = some 0
    · exact ⟨e :: rest, by simp [addFrom, hv]⟩
    · have h2 : rest.any (fun w => w.Name.head? == some 0) = true := by
        rcases List.any_eq_true.mp h with ⟨x, hx, hpx⟩
        rcases List.mem_cons.mp hx with hxv | hx2
        · exact absurd (beq_iff_eq.mp (hxv ▸ hpx)) hv
        · exact List.any_eq_true.mpr ⟨x, hx2, hpx⟩
      obtain ⟨r, hr⟩ := ih h2
      exact ⟨v :: r, by simp [addFrom, hv, hr]⟩

/-- Writing one slot preserves pairwise uniqueness as long as the written
entry cannot collide with any other live slot. -/
theorem uniquePairs_set (l : List FileEntry) (i : Nat) (e : FileEntry)
    (h : uniquePairs l)
    (hcond : ∀ (j : Nat) (w : FileEntry), j ≠ i → l[j]? = some w → liveB w = true →
      liveB e = true → ¬(e.Name = w.Name ∧ e.Path = w.Path)) :
    uniquePairs (l.set i e) := by
  intro a b ea eb hab ha hb la lb hpair
  rw [List.getElem?_set] at ha hb
  by_cases hia : i = a <;> by_cases hib : i = b
  · exact hab (hia ▸ hib ▸ rfl)
  · subst hia
    rw [if_pos rfl] at ha
    rw [if_neg hib] at hb
    by_cases hil : i < l.length
    · rw [if_pos hil] at ha
      have hae : e = ea := Option.some.inj ha
      exact hcond b eb (fun hbi => hib hbi.symm) hb lb (hae ▸ la)
        ⟨hae ▸ hpair.1, hae ▸ hpair.2⟩
    · rw [if_neg hil] at ha
      cases ha
  · subst hib
    rw [if_pos rfl] at hb
    rw [if_neg hia] at ha
    by_cases hil : i < l.length
    · rw [if_pos hil] at hb
      have hbe : e = eb := Option.some.inj hb
      exact hcond a ea (fun hai => hia hai.symm) ha la (hbe ▸ lb)
        ⟨hbe ▸ hpair.1.symm, hbe ▸ hpair.2.symm⟩
    · rw [if_neg hil] at hb
      cases hb
  · rw [if_neg hia] at ha
    rw [if_neg hib] at hb
    exact h a b ea eb hab ha hb la lb hpair

/-- Inserting an entry that the full-buffer scan did not find preserves
pairwise uniqueness (core lemma for both insertion paths). -/
theorem uniquePairs_addFrom (l : List FileEntry) (e : FileEntry) (rd : List FileEntry)
    (h : uniquePairs l) (hc : checkFrom e.Name e.Path 0 l = none)
    (ha : addFrom l e = some rd) : uniquePairs rd := by
  obtain ⟨i, v, hiv, hv0, hre⟩ := addFrom_eq_some l e rd ha
  subst hre
  refine uniquePairs_set l i e h ?_
  intro j w hji hjw hlw hle hpair
  have hwl : w ∈ l := by
    obtain ⟨hlt, hg⟩ := List.getElem?_eq_some.mp hjw
    exact hg ▸ List.getElem_mem hlt
  exact checkFrom_eq_none e.Name e.Path l 0 hc w hwl ⟨hpair.1.symm, hpair.2.symm⟩

/-- The catalog-insertion tail of copy-in preserves pairwise uniqueness
when the pre-existence scan failed. -/
theorem uniquePairs_insertFirstFree (l : List FileEntry) (e : FileEntry)
    (h : uniquePairs l) (hc : checkFrom e.Name e.Path 0 l = none) :
    uniquePairs (insertFirstFree l e) := by
  unfold insertFirstFree
  cases haf : addFrom l e with
  | none => simpa using h
  | some r => simpa using uniquePairs_addFrom l e r h hc haf

/-- The streaming loop of copy-in never touches the catalog. -/
theorem copyChunks_rootDir :
    ∀ (k : Nat) (fs : FURGFileSystem) (fb : Nat) (fset : Bool) (pb : Nat),
      (copyChunks k fs fb fset pb).2.1.RootDir = fs.RootDir := by
  intro k
  induction k with
  | zero => intro fs fb fset pb; rfl
  | succ m ih =>
    intro fs fb fset pb
    simp only [copyChunks]
    cases hal : allocFrom 0 fs.FAT with
    | none => rfl
    | some p =>
      obtain ⟨cid, fat1⟩ := p
      cases fset <;> simp [ih]

/-- The all-dead catalog of a freshly formatted image is trivially
pairwise unique. -/
theorem uniquePairs_replicate_zero (n : Nat) :
    uniquePairs (List.replicate n zeroFileEntry) := by
  intro i j ei ej _ hi _ li _
  rw [List.getElem?_replicate] at hi
  by_cases hin : i < n
  · rw [if_pos hin] at hi
    have : liveB ei = false := by
      rw [← Option.some.inj hi]
      decide
    simp [this] at li
  · rw [if_neg hin] at hi
    cases hi

/-- Helper: a getElem? fact determines the getD value used by the source
style indexing. -/
theorem getD_of_getElem? (l : List FileEntry) (i : Nat) (v : FileEntry)
    (h : l[i]? = some v) : l.getD i zeroFileEntry = v := by
  rw [List.getD_eq_getElem?_getD, h]
  rfl


/-- Every facade step preserves catalog pair uniqueness, provided rename
steps satisfy the no-collision guard at their own state. -/
theorem uniq_step (fs : FURGFileSystem) (op : Op) (h : uniquePairs fs.RootDir)
    (hg : renameOk fs op = true) : uniquePairs (stepOp fs op).RootDir := by
  cases op with
  | copyIn n sz p pr =>
    simp only [stepOp, CopyFileToFileSystem]
    split
    · exact h
    next arr hpf =>
      split
      · exact h
      next hchk =>
        split
        next fs1 fb hcc =>
          have h2 := copyChunks_rootDir (numChunks sz fs.Header.BlockSize) fs 0 false 0
          rw [hcc] at h2
          show uniquePairs fs1.RootDir
          rw [h2]; exact h
        next fs1 fb hcc =>
          have h2 := copyChunks_rootDir (numChunks sz fs.Header.BlockSize) fs 0 false 0
          rw [hcc] at h2
          have hA : uniquePairs fs1.RootDir := by rw [h2]; exact h
          have hB : checkFrom arr (padBytes 128 p) 0 fs1.RootDir = none := by
            rw [h2]; exact hchk
          exact uniquePairs_insertFirstFree fs1.RootDir
            { Name := arr, Path := padBytes 128 p, Size := sz, FirstBlockID := fb,
              Protected := pr, IsDirectory := false } hA hB
  | removeFile n p =>
    simp only [stepOp, RemoveFileFromFileSystem]
    split
    · exact h
    next hnull =>
      split
      · exact h
      next idx hchk =>
        split
        · exact h
        next hprot =>
          refine uniquePairs_set fs.RootDir idx zeroFileEntry h ?_
          intro j w _ _ _ hle
          have hz : liveB zeroFileEntry = false := by decide
          rw [hz] at hle
          cases hle
  | renameFile o p nn =>
    simp only [stepOp, RenameFileFromFileSystem]
    split
    · exact h
    next idx hchk =>
      split
      · exact h
      next hprot =>
        obtain ⟨j, v, hij, hjv, hvn, hvp, _⟩ :=
          checkFrom_eq_some (padBytes 32 o) (padBytes 128 p) fs.RootDir 0 idx hchk
        have hidx : idx = j := by omega
        subst hidx
        have hf : fs.RootDir.getD idx zeroFileEntry = v := getD_of_getElem? _ _ _ hjv
        have hany : fs.RootDir.any
            (fun x => liveB x && x.Name == padBytes 32 nn && x.Path == padBytes 128 p)
            = false := by
          have h2 : (!fs.RootDir.any
              (fun x => liveB x && x.Name == padBytes 32 nn && x.Path == padBytes 128 p))
              = true := hg
          cases h3 : fs.RootDir.any
              (fun x => liveB x && x.Name == padBytes 32 nn && x.Path == padBytes 128 p)
          · rfl
          · rw [h3] at h2; cases h2
        refine uniquePairs_set fs.RootDir idx
          { fs.RootDir.getD idx zeroFileEntry with Name := padBytes 32 nn } h ?_
        intro m w hmi hmw hlw _ hpair
        have hwmem : w ∈ fs.RootDir := by
          obtain ⟨hlt, hgx⟩ := List.getElem?_eq_some.mp hmw
          exact hgx ▸ List.getElem_mem hlt
        have hwfalse := List.any_eq_false.mp hany w hwmem
        apply hwfalse
        simp only [Bool.and_eq_true, beq_iff_eq]
        refine ⟨⟨hlw, hpair.1.symm⟩, ?_⟩
        have hpw : ({ fs.RootDir.getD idx zeroFileEntry with Name := padBytes 32 nn }).Path
            = padBytes 128 p := by
          rw [hf]; exact hvp
        rw [← hpw]
        exact hpair.2.symm
  | changePermission n p =>
    simp only [stepOp, ChangePermission]
    split
    · exact h
    next hnull =>
      split
      · exact h
      next idx hchk =>
        obtain ⟨j, v, hij, hjv, _, _, _⟩ :=
          checkFrom_eq_some (padBytes 32 n) (padBytes 128 p) fs.RootDir 0 idx hchk
        have hidx : idx = j := by omega
        subst hidx
        have hf : fs.RootDir.getD idx zeroFileEntry = v := getD_of_getElem? _ _ _ hjv
        refine uniquePairs_set fs.RootDir idx
          { fs.RootDir.getD idx zeroFileEntry with
            Protected := !(fs.RootDir.getD idx zeroFileEntry).Protected } h ?_
        intro m w hmi hmw hlw hle hpair
        have hlv : liveB v = true := by rw [← hf]; exact hle
        have hvw : v.Name = w.Name ∧ v.Path = w.Path := by
          constructor
          · rw [← hf]; exact hpair.1
          · rw [← hf]; exact hpair.2
        exact h idx m v w (fun hh => hmi hh.symm) hjv hmw hlv hlw hvw
  | makeDirectory n p =>
    simp only [stepOp, CreateDirectory]
    split
    · exact h
    next hcont =>
      split
      · exact h
      next hnull =>
        split
        · exact h
        next d hdir =>
          split
          · exact h
          next hchk =>
            split
            · exact h
            next rd hadd =>
              exact uniquePairs_addFrom fs.RootDir
                { zeroFileEntry with
                  Name := padBytes 32 n, Path := padBytes 128 p, IsDirectory := true }
                rd h hchk hadd
  | removeDirectory n p =>
    simp only [stepOp, DeleteDirectory]
    split
    · exact h
    next idx hdir =>
      split <;> split <;>
        first
        | exact h
        | (refine uniquePairs_set fs.RootDir idx zeroFileEntry h ?_
           intro j w _ _ _ hle
           have hz : liveB zeroFileEntry = false := by decide
           rw [hz] at hle
           cases hle)

/-- Pair uniqueness is an invariant of guarded runs. -/
theorem uniq_run :
    ∀ (ops : List Op) (fs : FURGFileSystem), uniquePairs fs.RootDir →
      guardedRun fs ops = true → uniquePairs (runOps fs ops).RootDir := by
  intro ops
  induction ops with
  | nil => intro fs h _; exact h
  | cons op rest ih =>
    intro fs h hg
    have hg2 := (Bool.and_eq_true _ _).mp hg
    exact ih (stepOp fs op) (uniq_step fs op h hg2.1) hg2.2

/-- The entry produced by the duplicate-creating run below, in both slots. -/
def dupDirEntry : FileEntry :=
  { zeroFileEntry with
    Name := padBytes 32 [98], Path := padBytes 128 [47], IsDirectory := true }

/-- Claim C8 counterexample: starting from the formatted 10 MiB image, the
run mkdir a at the root, mkdir b at the root, rename a to b produces two
live catalog slots holding the same (name, parent path) pair, so the
uniqueness invariant claimed for all operation sequences fails: rename does
not re-check the new name. -/
theorem rename_creates_duplicate_pair :
    ¬ uniquePairs (runOps (createFileSystem 4096 10485760)
      [Op.makeDirectory [97] [47], Op.makeDirectory [98] [47],
       Op.renameFile [97] [47] [98]]).RootDir := by
  intro h
  exact h 0 1 dupDirEntry dupDirEntry (by decide) (by decide) (by decide)
    (by decide) (by decide) ⟨rfl, rfl⟩

/-- Claim C8 (amended): for every sequence of facade operations starting
from a freshly formatted image in which every successful rename is invoked
only when no live slot already holds the zero-padded (new name, parent
path) pair, after each completed operation no two live catalog slots hold
the same (name, parent path) pair.  (The un-amended claim fails because
rename performs no such re-check; see the counterexample.) -/
theorem guarded_ops_preserve_pair_uniqueness (BlockSize TotalSize : Nat) (ops : List Op)
    (hg : guardedRun (createFileSystem BlockSize TotalSize) ops = true) :
    uniquePairs (runOps (createFileSystem BlockSize TotalSize) ops).RootDir :=
  uniq_run ops (createFileSystem BlockSize TotalSize) (uniquePairs_replicate_zero 100) hg

/-- Claim C8 witness: a concrete guarded run (mkdir a, rename a to b) on
the formatted 10 MiB image, with the guard discharged by evaluation. -/
theorem guarded_ops_preserve_pair_uniqueness_witness :
    guardedRun (createFileSystem 4096 10485760)
      [Op.makeDirectory [97] [47], Op.renameFile [97] [47] [98]] = true ∧
    uniquePairs (runOps (createFileSystem 4096 10485760)
      [Op.makeDirectory [97] [47], Op.renameFile [97] [47] [98]]).RootDir :=
  ⟨by decide,
   guarded_ops_preserve_pair_uniqueness 4096 10485760
     [Op.makeDirectory [97] [47], Op.renameFile [97] [47] [98]] (by decide)⟩

/-- A zero-byte host file produces no nonempty read. -/
theorem numChunks_zero (b : Nat) : numChunks 0 b = 0 := by
  cases b with
  | zero => rfl
  | succ m =>
    show (0 + (m + 1) - 1) / (m + 1) = 0
    rw [Nat.zero_add, Nat.succ_sub_one]
    exact Nat.div_eq_of_lt (Nat.lt_succ_self m)

/-- A successful insertion scan writes over the FIRST slot whose name
starts with a zero byte: no earlier slot has one. -/
theorem addFrom_eq_some_first :
    ∀ (l : List FileEntry) (e : FileEntry) (r : List FileEntry), addFrom l e = some r →
      ∃ i v, l[i]? = some v ∧ v.Name.head? = some 0 ∧
        (∀ (m : Nat) (w : FileEntry), m < i → l[m]? = some w → w.Name.head? ≠ some 0) ∧
        r = l.set i e := by
  intro l e
  induction l with
  | nil => intro r h; simp [addFrom] at h
  | cons v rest ih =>
    intro r h
    by_cases hv : v.Name.head? = some 0
    · have hr : e :: rest = r := by simpa [addFrom, hv] using h
      exact ⟨0, v, List.getElem?_cons_zero, hv,
        fun m w hm _ => absurd hm (Nat.not_lt_zero m), by simp [← hr]⟩
    · have h2 : (addFrom rest e).map (fun rr => v :: rr) = some r := by
        simpa [addFrom, hv] using h
      obtain ⟨r2, hr2, hrr⟩ := Option.map_eq_some'.mp h2
      obtain ⟨i, w, hiw, hw0, hmin, hre⟩ := ih r2 hr2
      refine ⟨i + 1, w, by simpa using hiw, hw0, ?_, by simp [← hrr, hre]⟩
      intro m u hm hu
      cases m with
      | zero =>
        have hvu : v = u := by simpa using hu
        exact hvu ▸ hv
      | succ m2 =>
        exact hmin m2 u (by omega) (by simpa using hu)

/-- When no slot has a zero name head (a full catalog), the insertion scan
fails. -/
theorem addFrom_eq_none_of_any_false :
    ∀ (l : List FileEntry) (e : FileEntry),
      l.any (fun v => v.Name.head? == some 0) = false → addFrom l e = none := by
  intro l e
  induction l with
  | nil => intro _; rfl
  | cons v rest ih =>
    intro h
    have h2 := List.any_eq_false.mp h
    have hv : ¬v.Name.head? = some 0 := by
      intro hv0
      exact h2 v (List.mem_cons_self v rest) (by simp [hv0])
    have hrest : rest.any (fun w => w.Name.head? == some 0) = false := by
      refine List.any_eq_false.mpr ?_
      intro x hx
      exact h2 x (List.mem_cons_of_mem v hx)
    simp [addFrom, hv, ih hrest]

/-- Claim C9 (amended): copy-in of a zero-byte host file that passes the
pre-checks reports success, allocates no FAT entry and leaves the header
(hence free_space) unchanged; when some catalog slot is free (its name
starts with a zero byte), an entry with first_block_id = 0 and size = 0 is
inserted over the first such slot; when no slot is free, the catalog is
unchanged, so nothing is inserted although success is still reported (the
un-amended claim fails there, see the counterexample). -/
theorem copyIn_zero_size_inserts (fs : FURGFileSystem) (fileName internalPath : List Nat)
    (prot : Bool) (hlen : fileName.length ≤ 32)
    (hchk : CheckFileEntryAlreadyExists fs (padBytes 32 fileName) (padBytes 128 internalPath)
      = none) :
    (CopyFileToFileSystem fs fileName 0 internalPath prot).1 = true ∧
    (CopyFileToFileSystem fs fileName 0 internalPath prot).2.FAT = fs.FAT ∧
    (CopyFileToFileSystem fs fileName 0 internalPath prot).2.Header = fs.Header ∧
    (fs.RootDir.any (fun v => v.Name.head? == some 0) = true →
      ∃ i v, fs.RootDir[i]? = some v ∧ v.Name.head? = some 0 ∧
        (∀ (m : Nat) (w : FileEntry), m < i → fs.RootDir[m]? = some w →
          w.Name.head? ≠ some 0) ∧
        (CopyFileToFileSystem fs fileName 0 internalPath prot).2.RootDir =
          fs.RootDir.set i
            { Name := padBytes 32 fileName, Path := padBytes 128 internalPath, Size := 0,
              FirstBlockID := 0, Protected := prot, IsDirectory := false }) ∧
    (fs.RootDir.any (fun v => v.Name.head? == some 0) = false →
      (CopyFileToFileSystem fs fileName 0 internalPath prot).2.RootDir = fs.RootDir) := by
  have hpf : ProcessFileForFileSystem fs fileName 0 = some (padBytes 32 fileName) := by
    unfold ProcessFileForFileSystem
    rw [if_neg (by omega : ¬(0 : Nat) > fs.Header.FreeSpace),
      if_neg (by omega : ¬fileName.length > 32)]
  have hred : CopyFileToFileSystem fs fileName 0 internalPath prot =
      (true, { fs with RootDir := (insertFirstFree fs.RootDir
        { Name := padBytes 32 fileName, Path := padBytes 128 internalPath, Size := 0,
          FirstBlockID := 0, Protected := prot, IsDirectory := false }) }) := by
    simp only [CopyFileToFileSystem, hpf, hchk, numChunks_zero, copyChunks]
  refine ⟨by rw [hred], by rw [hred], by rw [hred], ?_, ?_⟩
  · intro hfree
    obtain ⟨r, hr⟩ := addFrom_isSome_of_any fs.RootDir
      { Name := padBytes 32 fileName, Path := padBytes 128 internalPath, Size := 0,
        FirstBlockID := 0, Protected := prot, IsDirectory := false } hfree
    obtain ⟨i, v, hiv, hv0, hmin, hre⟩ := addFrom_eq_some_first _ _ _ hr
    refine ⟨i, v, hiv, hv0, hmin, ?_⟩
    rw [hred]
    show insertFirstFree fs.RootDir _ = _
    rw [insertFirstFree, hr]
    exact hre
  · intro hfull
    rw [hred]
    show insertFirstFree fs.RootDir _ = _
    rw [insertFirstFree, addFrom_eq_none_of_any_false _ _ hfull]
    rfl

/-- Claim C9 witness: the amended statement evaluated on a small fresh
state (whose first catalog slot is free). -/
theorem copyIn_zero_size_inserts_witness :
    ([98] : List Nat).length ≤ 32 ∧
    CheckFileEntryAlreadyExists freshTwoFs (padBytes 32 [98]) (padBytes 128 [47]) = none ∧
    ((CopyFileToFileSystem freshTwoFs [98] 0 [47] false).1 = true ∧
     (CopyFileToFileSystem freshTwoFs [98] 0 [47] false).2.FAT = freshTwoFs.FAT ∧
     (CopyFileToFileSystem freshTwoFs [98] 0 [47] false).2.Header = freshTwoFs.Header ∧
     (freshTwoFs.RootDir.any (fun v => v.Name.head? == some 0) = true →
       ∃ i v, freshTwoFs.RootDir[i]? = some v ∧ v.Name.head? = some 0 ∧
         (∀ (m : Nat) (w : FileEntry), m < i → freshTwoFs.RootDir[m]? = some w →
           w.Name.head? ≠ some 0) ∧
         (CopyFileToFileSystem freshTwoFs [98] 0 [47] false).2.RootDir =
           freshTwoFs.RootDir.set i
             { Name := padBytes 32 [98], Path := padBytes 128 [47], Size := 0,
               FirstBlockID := 0, Protected := false, IsDirectory := false }) ∧
     (freshTwoFs.RootDir.any (fun v => v.Name.head? == some 0) = false →
       (CopyFileToFileSystem freshTwoFs [98] 0 [47] false).2.RootDir = freshTwoFs.RootDir)) :=
  ⟨by decide, by decide,
   copyIn_zero_size_inserts freshTwoFs [98] [47] false (by decide) (by decide)⟩

/-- A state whose catalog is full: its single slot is live. -/
def fullCatalogFs : FURGFileSystem :=
  { Header := { TotalSize := 40, BlockSize := 4, FreeSpace := 20,
                FATEntrypointAddress := 24, RootDirStart := 28, DataStart := 28 },
    FAT := [zeroFATEntry],
    RootDir := [{ zeroFileEntry with
                  Name := padBytes 32 [99], Path := padBytes 128 [47] }] }

/-- Claim C9 counterexample: on a full catalog, copy-in of a zero-byte file
passes every pre-check and reports success, yet the state is completely
unchanged: no catalog entry is inserted, refuting the claim as stated. -/
theorem copyIn_zero_size_full_catalog_counterexample :
    CheckFileEntryAlreadyExists fullCatalogFs (padBytes 32 [98]) (padBytes 128 [47]) = none ∧
    ([98] : List Nat).length ≤ 32 ∧
    (CopyFileToFileSystem fullCatalogFs [98] 0 [47] false).1 = true ∧
    (CopyFileToFileSystem fullCatalogFs [98] 0 [47] false).2 = fullCatalogFs := by
  decide

/-- Claim C10 (amended): on any catalog holding at least one dead slot
(all bytes zero), the lookup applied to the all-zero name and path buffers
returns the lowest index whose name and path buffers are all zero - never
NotFound - and that index is at most every dead slot index (it IS the
lowest dead slot whenever every zero-name-zero-path slot is fully zero,
but an adversarial slot with zero buffers and a nonzero scalar field can
sit lower, see the counterexample).  When the found slot is dead, rename
accepts the empty old name and empty path, writes the new name into that
slot, and turns it live. -/
theorem checkZero_finds_zero_name_slot (fs : FURGFileSystem) (newFileName : List Nat)
    (hdead : fs.RootDir.any (fun v => v == zeroFileEntry) = true)
    (hnew : (padBytes 32 newFileName).head? ≠ some 0) :
    ∃ i, CheckFileEntryAlreadyExists fs (List.replicate 32 0) (List.replicate 128 0)
        = some i ∧
      (∀ (m : Nat) (w : FileEntry), fs.RootDir[m]? = some w → w = zeroFileEntry → i ≤ m) ∧
      (fs.RootDir[i]? = some zeroFileEntry →
        (RenameFileFromFileSystem fs [] [] newFileName).1 = true ∧
        (RenameFileFromFileSystem fs [] [] newFileName).2.RootDir =
          fs.RootDir.set i { zeroFileEntry with Name := padBytes 32 newFileName } ∧
        liveB { zeroFileEntry with Name := padBytes 32 newFileName } = true) := by
  cases hc : CheckFileEntryAlreadyExists fs (List.replicate 32 0) (List.replicate 128 0) with
  | none =>
    exfalso
    obtain ⟨x, hx, hpx⟩ := List.any_eq_true.mp hdead
    have hxz : x = zeroFileEntry := beq_iff_eq.mp hpx
    exact checkFrom_eq_none (List.replicate 32 0) (List.replicate 128 0) fs.RootDir 0 hc x hx
      ⟨by rw [hxz]; rfl, by rw [hxz]; rfl⟩
  | some i =>
    obtain ⟨j, v, hij, hjv, hvn, hvp, hmin⟩ :=
      checkFrom_eq_some (List.replicate 32 0) (List.replicate 128 0) fs.RootDir 0 i hc
    have hji : j = i := by omega
    subst hji
    refine ⟨j, rfl, ?_, ?_⟩
    · intro m w hmw hwz
      by_contra hlt
      push_neg at hlt
      exact hmin m w hlt hmw ⟨by rw [hwz]; rfl, by rw [hwz]; rfl⟩
    · intro hz
      have hveq : v = zeroFileEntry := by
        rw [hjv] at hz
        exact Option.some.inj hz
      have hpad32 : padBytes 32 ([] : List Nat) = List.replicate 32 0 := rfl
      have hpad128 : padBytes 128 ([] : List Nat) = List.replicate 128 0 := rfl
      have hgetD : fs.RootDir.getD j zeroFileEntry = zeroFileEntry := by
        rw [getD_of_getElem? _ _ _ hjv, hveq]
      have hprotne : ¬(fs.RootDir.getD j zeroFileEntry).Protected = true := by
        rw [hgetD]
        exact Bool.false_ne_true
      have hlive : liveB { zeroFileEntry with Name := padBytes 32 newFileName } = true := by
        have hb : ((padBytes 32 newFileName).head? == some (0 : Nat)) = false := by
          cases hb2 : (padBytes 32 newFileName).head? == some (0 : Nat)
          · rfl
          · exact absurd (eq_of_beq hb2) hnew
        simp [liveB, hb]
      have hred : RenameFileFromFileSystem fs [] [] newFileName =
          (true, { fs with RootDir := (fs.RootDir.set j
            { fs.RootDir.getD j zeroFileEntry with Name := padBytes 32 newFileName }) }) := by
        simp only [RenameFileFromFileSystem, hpad32, hpad128, hc]
        rw [if_neg hprotne]
      refine ⟨by rw [hred], ?_, hlive⟩
      rw [hred, hgetD]

/-- A catalog whose only slot is dead. -/
def deadSlotFs : FURGFileSystem :=
  { Header := { TotalSize := 40, BlockSize := 4, FreeSpace := 20,
                FATEntrypointAddress := 24, RootDirStart := 28, DataStart := 28 },
    FAT := [], RootDir := [zeroFileEntry] }

/-- Claim C10 witness: the amended statement evaluated on a catalog whose
lowest slot is dead, with new name x. -/
theorem checkZero_finds_zero_name_slot_witness :
    deadSlotFs.RootDir.any (fun v => v == zeroFileEntry) = true ∧
    (padBytes 32 [120]).head? ≠ some 0 ∧
    (∃ i, CheckFileEntryAlreadyExists deadSlotFs (List.replicate 32 0) (List.replicate 128 0)
        = some i ∧
      (∀ (m : Nat) (w : FileEntry), deadSlotFs.RootDir[m]? = some w → w = zeroFileEntry →
        i ≤ m) ∧
      (deadSlotFs.RootDir[i]? = some zeroFileEntry →
        (RenameFileFromFileSystem deadSlotFs [] [] [120]).1 = true ∧
        (RenameFileFromFileSystem deadSlotFs [] [] [120]).2.RootDir =
          deadSlotFs.RootDir.set i { zeroFileEntry with Name := padBytes 32 [120] } ∧
        liveB { zeroFileEntry with Name := padBytes 32 [120] } = true)) :=
  ⟨by decide, by decide,
   checkZero_finds_zero_name_slot deadSlotFs [120] (by decide) (by decide)⟩

/-- A catalog whose slot 0 has all-zero name and path buffers but a nonzero
size (so it is not a dead slot), while slot 1 is dead. -/
def zombieSlotFs : FURGFileSystem :=
  { Header := { TotalSize := 40, BlockSize := 4, FreeSpace := 20,
                FATEntrypointAddress := 24, RootDirStart := 28, DataStart := 28 },
    FAT := [], RootDir := [{ zeroFileEntry with Size := 5 }, zeroFileEntry] }

/-- Claim C10 counterexample: the all-zero lookup returns index 0, whose
slot is not dead (its size field is nonzero), while the lowest dead slot is
index 1 - so the lookup does not in general return the index of the lowest
dead slot as the claim states. -/
theorem checkZero_not_lowest_dead_counterexample :
    CheckFileEntryAlreadyExists zombieSlotFs (List.replicate 32 0) (List.replicate 128 0)
      = some 0 ∧
    zombieSlotFs.RootDir[0]? ≠ some zeroFileEntry ∧
    zombieSlotFs.RootDir[1]? = some zeroFileEntry := by
  decide
